import Mathlib

/-!
Verification of the two-phase Rubik's cube solver (`cube_solver` package)
against its natural-language specification.

The definitions below are shallow embeddings of the Python source files
`bitcube.py`, `bit_tables.py`, `coordcube.py` and `search.py`.  Python
machine integers are embedded as `Nat`/`Int` (Python ints are unbounded, so
no wrap-around is modelled); Python lists become `List`; out-of-range list
reads, which raise `IndexError` in Python, are embedded with `List.getD`
and are only ever used in-range in the theorems unless explicitly noted.

A few modules of the repository (`cubiecube.py`, `facecube.py`, `color.py`,
`edge.py`) are imported by the sources but are not present in the source
tree; definitions taken from them are modelled from the specification and
carry a doc comment starting with `Modelled from the spec:`.
-/

/-! ### `bitcube.py`: Lehmer-code ranking and unranking

`_factorial` in the source is the table `[0!, 1!, ..., 12!]`; it is only
read at indices `≤ 12`, so we embed it as `Nat.factorial`. -/

/-- `bitcube.py` line 27: `sum(1 for x in range(p[i]) if not used[x])`.
The Python `used` bool-array over `range(n)` is embedded as the list of
already-consumed values; `used[x]` is membership in that list. -/
def smallerCount (used : List Nat) (v : Nat) : Nat :=
  (List.range v).countP (fun x => decide (x ∉ used))

/-- `bitcube.py` lines 21-30, the loop body of `perm_to_int`: at position
`i` the contribution is `smaller * _factorial[n - 1 - i]`, and
`n - 1 - i` is the length of the remaining suffix. -/
def perm_to_int_go (used : List Nat) : List Nat → Nat
  | [] => 0
  | v :: rest =>
      smallerCount used v * Nat.factorial rest.length + perm_to_int_go (v :: used) rest

/-- `bitcube.py` `perm_to_int`: permutation → Lehmer-code integer rank. -/
def perm_to_int (p : List Nat) : Nat := perm_to_int_go [] p

/-- `bitcube.py` lines 37-40, the loop of `int_to_perm`: `i` runs from
`n - 1` down to `0`; each step does `idx, code = divmod(code, _factorial[i])`
and `perm.append(elems.pop(idx))`.  The fuel argument is `i + 1`.
(`elems.pop(idx)` raises `IndexError` for `idx ≥ len(elems)` in Python; the
embedding reads `getD ... 0` / a no-op `eraseIdx` there, a case that never
arises for in-range codes.) -/
def int_to_perm_loop : Nat → List Nat → Nat → List Nat
  | 0, _, _ => []
  | k + 1, elems, code =>
      let idx := code / Nat.factorial k
      let c := code % Nat.factorial k
      elems.getD idx 0 :: int_to_perm_loop k (elems.eraseIdx idx) c

/-- `bitcube.py` `int_to_perm`: Lehmer-code integer → permutation list.
Note the source reverses the accumulated list before returning it
(`perm.reverse()` on line 41). -/
def int_to_perm (code n : Nat) : List Nat :=
  (int_to_perm_loop n (List.range n) code).reverse

/-! ### Cubie-level cube and the bit-packed representation (`bitcube.py`,
`bit_tables.py`)

`cubiecube.py` and `edge.py` are imported by these modules but are not in
the source tree, so the cubie-level pieces are modelled from the spec. -/

/-- Cubie-level cube state (spec §3.1): corner/edge permutations and
orientation vectors. -/
structure CubieCube where
  cp : List Nat
  co : List Nat
  ep : List Nat
  eo : List Nat
deriving DecidableEq

/-- Modelled from the spec: §4.1 `compose` on the corner part —
`(A∘B).cp[i] = A.cp[B.cp[i]]`, `(A∘B).co[i] = (A.co[B.cp[i]] + B.co[i]) mod 3`
(`cubiecube.py` `cornerMultiply`, not in src/). -/
def cornerMultiply (a b : CubieCube) : CubieCube :=
  { a with
    cp := (List.range 8).map (fun i => a.cp.getD (b.cp.getD i 0) 0)
    co := (List.range 8).map (fun i => (a.co.getD (b.cp.getD i 0) 0 + b.co.getD i 0) % 3) }

/-- Modelled from the spec: §4.1 `compose` on the edge part, with mod-2
orientation (`cubiecube.py` `edgeMultiply`, not in src/). -/
def edgeMultiply (a b : CubieCube) : CubieCube :=
  { a with
    ep := (List.range 12).map (fun i => a.ep.getD (b.ep.getD i 0) 0)
    eo := (List.range 12).map (fun i => (a.eo.getD (b.ep.getD i 0) 0 + b.eo.getD i 0) % 2) }

/-- Modelled from the spec: §4.1 — full composition `A∘B` (`cubiecube.py`
`multiply`, not in src/). -/
def cubieMultiply (a b : CubieCube) : CubieCube :=
  edgeMultiply (cornerMultiply a b) b

/-- Modelled from the spec: §4.1 — the six basic move cubies, the cubie
representation of a 90° CW turn of each face, in the slot orderings of
§3.1 (corners URF,UFL,ULB,UBR,DFR,DLF,DBL,DRB; edges UR,UF,UL,UB,DR,DF,
DL,DB,FR,FL,BL,BR) with the facelet layout of §6.1 (`cubiecube.py`
`moveCube`, not in src/). -/
def moveU : CubieCube :=
  { cp := [3, 0, 1, 2, 4, 5, 6, 7], co := [0, 0, 0, 0, 0, 0, 0, 0]
    ep := [3, 0, 1, 2, 4, 5, 6, 7, 8, 9, 10, 11]
    eo := [0, 0, 0, 0, 0, 0, 0, 0, 0, 0, 0, 0] }

/-- Modelled from the spec: the R move cubie (see `moveU`). -/
def moveR : CubieCube :=
  { cp := [4, 1, 2, 0, 7, 5, 6, 3], co := [2, 0, 0, 1, 1, 0, 0, 2]
    ep := [8, 1, 2, 3, 11, 5, 6, 7, 4, 9, 10, 0]
    eo := [0, 0, 0, 0, 0, 0, 0, 0, 0, 0, 0, 0] }

/-- Modelled from the spec: the F move cubie (see `moveU`). -/
def moveF : CubieCube :=
  { cp := [1, 5, 2, 3, 0, 4, 6, 7], co := [1, 2, 0, 0, 2, 1, 0, 0]
    ep := [0, 9, 2, 3, 4, 8, 6, 7, 1, 5, 10, 11]
    eo := [0, 1, 0, 0, 0, 1, 0, 0, 1, 1, 0, 0] }

/-- Modelled from the spec: the D move cubie (see `moveU`). -/
def moveD : CubieCube :=
  { cp := [0, 1, 2, 3, 5, 6, 7, 4], co := [0, 0, 0, 0, 0, 0, 0, 0]
    ep := [0, 1, 2, 3, 5, 6, 7, 4, 8, 9, 10, 11]
    eo := [0, 0, 0, 0, 0, 0, 0, 0, 0, 0, 0, 0] }

/-- Modelled from the spec: the L move cubie (see `moveU`). -/
def moveL : CubieCube :=
  { cp := [0, 2, 6, 3, 4, 1, 5, 7], co := [0, 1, 2, 0, 0, 2, 1, 0]
    ep := [0, 1, 9, 3, 4, 5, 10, 7, 8, 6, 2, 11]
    eo := [0, 0, 0, 0, 0, 0, 0, 0, 0, 0, 0, 0] }

/-- Modelled from the spec: the B move cubie (see `moveU`). -/
def moveB : CubieCube :=
  { cp := [0, 1, 3, 7, 4, 5, 2, 6], co := [0, 0, 1, 2, 0, 0, 2, 1]
    ep := [0, 1, 2, 11, 4, 5, 6, 10, 8, 9, 3, 7]
    eo := [0, 0, 0, 1, 0, 0, 0, 1, 0, 0, 1, 1] }

/-- Modelled from the spec: `moveCube`, the list of the six basic move
cubies indexed by axis U,R,F,D,L,B = 0..5. -/
def moveCube : List CubieCube := [moveU, moveR, moveF, moveD, moveL, moveB]

/-- Modelled from the spec: `edge.py` `edge_values`, the twelve edge slot
indices in order (by analogy with `corner.py`, which is in src/). -/
def edge_values : List Nat := [0, 1, 2, 3, 4, 5, 6, 7, 8, 9, 10, 11]

/-- `bitcube.py` `BitPackedCubieCube`: three Python ints `pc`, `pe`,
`orie`. -/
structure BitCube where
  pc : Nat
  pe : Nat
  orie : Nat
deriving DecidableEq

/-- `bitcube.py` lines 56-71 `from_cubiecube`: `pc`/`pe` are Lehmer ranks;
`orie` packs the base-3 integer of the first 7 corner twists above the 12
edge-flip bits (the loop `eoro = (eoro << 1) | (cc.eo[idx] & 1)` over
`reversed(edge_values)` leaves edge 0 in bit 0). -/
def from_cubiecube (cc : CubieCube) : BitCube :=
  { pc := perm_to_int cc.cp
    pe := perm_to_int cc.ep
    orie :=
      ((List.range 7).foldl (fun acc i => acc * 3 + cc.co.getD i 0) 0) * 4096 +
        edge_values.reverse.foldl (fun acc idx => acc * 2 + cc.eo.getD idx 0 % 2) 0 }

/-- `bitcube.py` lines 96-107 `_decode_orientations`, corner part: peel the
upper 11 bits base-3 from the low digit up (`co[i] = tmp % 3` for
`i = 6..0`), then `co[7] = (-sum(co)) % 3`. -/
def decodeCo (orie : Nat) : List Nat :=
  let main := (List.range 7).map (fun i => orie / 4096 / 3 ^ (6 - i) % 3)
  main ++ [(3 - main.sum % 3) % 3]

/-- `bitcube.py` `_decode_orientations`, edge part:
`eo = [(eoro >> i) & 1 for i in range(12)][::-1]` — note the reversal. -/
def decodeEo (orie : Nat) : List Nat :=
  ((List.range 12).map (fun i => orie % 4096 / 2 ^ i % 2)).reverse

/-- `bitcube.py` lines 74-91 `to_cubiecube`. -/
def to_cubiecube (b : BitCube) : CubieCube :=
  { cp := int_to_perm b.pc 8
    ep := int_to_perm b.pe 12
    co := decodeCo b.orie
    eo := decodeEo b.orie }

/-- `bitcube.py` lines 109-117 `_encode_orientations`. -/
def encode_orientations (co eo : List Nat) : Nat :=
  ((List.range 7).foldl (fun acc i => acc * 3 + co.getD i 0) 0) * 4096 +
    eo.reverse.foldl (fun acc bit => acc * 2 + bit % 2) 0

/-- `bitcube.py` lines 120-125 `multiply_fallback`: decode to the classic
class, multiply by the given move cubie, re-encode. -/
def multiply_fallback (b : BitCube) (move_cc : CubieCube) : BitCube :=
  from_cubiecube (cubieMultiply (to_cubiecube b) move_cc)

/-- `bit_tables.py` lines 57-72: `MOVE_DELTA` — for each axis, the packed
90°, 180° and 270° turn cubes, in that order. -/
def MOVE_DELTA : List BitCube :=
  moveCube.flatMap (fun cc90 =>
    let cc180 := cubieMultiply cc90 cc90
    let cc270 := cubieMultiply cc180 cc90
    [from_cubiecube cc90, from_cubiecube cc180, from_cubiecube cc270])

/-- Python list indexing, including the negative-index-from-the-end rule
(needed because `multiply_native` computes index `axis*3 + (power % 3) - 1`,
which is `-1` for `axis = 0`, `power = 3`). -/
def pyListGetBitCube (l : List BitCube) (i : Int) : BitCube :=
  if 0 ≤ i then l.getD i.toNat ⟨0, 0, 0⟩
  else l.getD (l.length - (-i).toNat) ⟨0, 0, 0⟩

/-- `bitcube.py` lines 130-155 `multiply_native`: fast multiply through the
pre-packed `MOVE_DELTA` entry at index `axis * 3 + (power % 3) - 1`. -/
def multiply_native (b : BitCube) (axis power : Nat) : BitCube :=
  let delta := pyListGetBitCube MOVE_DELTA ((axis : Int) * 3 + (power % 3 : Nat) - 1)
  let perm_c := int_to_perm b.pc 8
  let perm_e := int_to_perm b.pe 12
  let d_perm_c := int_to_perm delta.pc 8
  let d_perm_e := int_to_perm delta.pe 12
  let new_perm_c := (List.range 8).map (fun i => perm_c.getD (d_perm_c.getD i 0) 0)
  let new_perm_e := (List.range 12).map (fun i => perm_e.getD (d_perm_e.getD i 0) 0)
  let co := decodeCo b.orie
  let eo := decodeEo b.orie
  let d_co := decodeCo delta.orie
  let d_eo := decodeEo delta.orie
  let new_co0 := (List.range 8).map (fun i => (d_co.getD i 0 + co.getD (d_perm_c.getD i 0) 0) % 3)
  let new_co := new_co0.take 7 ++ [(3 - (new_co0.take 7).sum % 3) % 3]
  let new_eo := (List.range 12).map (fun i => (d_eo.getD i 0 + eo.getD (d_perm_e.getD i 0) 0) % 2)
  { pc := perm_to_int new_perm_c
    pe := perm_to_int new_perm_e
    orie := encode_orientations new_co new_eo }

/-! ### Pruning-table packing (`coordcube.py` lines 23-54) and the enhanced
heuristic (`search.py` lines 51-66)

Table entries are Python ints; the fresh tables hold `0` or `-1`, so the
element type is `Int` and the bitwise operators carry Python's
two's-complement semantics on negatives. -/

/-- Python `a & m` for a mask `0 ≤ m < 256`: only the low byte of `a`
matters, so this equals `(a mod 256) & m` even for negative `a`. -/
def pyAnd (a : Int) (m : Nat) : Int :=
  Int.ofNat ((a.emod 256).toNat &&& m)

/-- Python `a | b` for the non-negative operands produced by `setPruning`
(a masked byte and a 4-bit value). -/
def pyOr (a b : Int) : Int :=
  Int.ofNat (a.toNat ||| b.toNat)

/-- Python `a >> n`: arithmetic shift, i.e. floor division by `2^n`
(`-1 >> 4 == -1` in Python). -/
def pyShr (a : Int) (n : Nat) : Int :=
  Int.fdiv a (2 ^ n)

/-- `coordcube.py` lines 38-54 `getPruning` (the transparent byte cache is
dropped: it is invalidated on every write, so reads always see the table).
`table[index >> 1]` raises `IndexError` beyond the end in Python; the
embedding reads `0` there, and the theorems state the lengths explicitly. -/
def getPruning (table : List Int) (index : Nat) : Int :=
  let byte_val := table.getD (index >>> 1) 0
  if index % 2 = 0 then pyAnd byte_val 15 else pyShr byte_val 4

/-- `coordcube.py` lines 23-35 `setPruning`: two 4-bit values per byte. -/
def setPruning (table : List Int) (index : Nat) (value : Int) : List Int :=
  let b := index >>> 1
  if index % 2 = 0 then
    table.set b (pyOr (pyAnd (table.getD b 0) 240) value)
  else
    table.set b (pyOr (pyAnd (table.getD b 0) 15) (value * 16))

/-- `coordcube.py` line 411: `Slice_Twist_Prun = [0] * ((N_SLICE1 * N_TWIST + 3) // 4)`
— the fresh backing array before the BFS fill (cache-miss path). -/
def sliceTwistPrunInit : List Int := List.replicate ((495 * 2187 + 3) / 4) 0

/-- `coordcube.py` line 437: `Slice_Flip_Prun = [-1] * (N_SLICE1 * N_FLIP // 2)`. -/
def sliceFlipPrunInit : List Int := List.replicate (495 * 2048 / 2) (-1)

/-- `coordcube.py` line 342:
`Slice_URFtoDLF_Parity_Prun = [-1] * (N_SLICE2 * N_URFtoDLF * N_PARITY // 2)`. -/
def sliceURFtoDLFParityPrunInit : List Int := List.replicate (24 * 20160 * 2 / 2) (-1)

/-- `coordcube.py` line 377:
`Slice_URtoDF_Parity_Prun = [-1] * (N_SLICE2 * N_URtoDF * N_PARITY // 2)`. -/
def sliceURtoDFParityPrunInit : List Int := List.replicate (24 * 20160 * 2 / 2) (-1)

/-- `search.py` lines 51-66 `get_enhanced_heuristic`.  In the source the two
pruning tables are the module-level `CoordCube.Slice_Flip_Prun` and
`CoordCube.Slice_Twist_Prun`; the embedding passes that table state
explicitly (`N_SLICE1 = 495`). -/
def get_enhanced_heuristic (sliceFlipPrun sliceTwistPrun : List Int)
    (flip twist slice_coord : Nat) (phase : Nat) : Int :=
  if phase = 1 then
    let h1 := getPruning sliceFlipPrun (495 * flip + slice_coord)
    let h2 := getPruning sliceTwistPrun (495 * twist + slice_coord)
    let base := max h1 h2
    if flip < 100 ∧ twist < 100 then max 0 (base - 1) else base
  else 0

/-! ### `search.py`: move-generation predicates, phase-2 move candidates,
and solution rendering -/

/-- `search.py` line 189: the phase-1 generator skips a candidate move on
axis `ax` after a previous move on axis `prevAx` when
`ax[n-1] == ax[n] or ax[n-1] - 3 == ax[n]`.  Python subtraction on ints can
go negative (`0 - 3 == -3`), so the axes are embedded as `Int`. -/
def phase1MoveSkipped (prevAx ax : Int) : Bool :=
  prevAx == ax || prevAx - 3 == ax

/-- `search.py` lines 278-285 (`totalDepth`): initializing the next phase-2
move after a parent on axis `prevAx` — axes U/D start the child at `(R, 2)`,
otherwise at `(U, 1)`. -/
def phase2InitMove (prevAx : Nat) : Nat × Nat :=
  if prevAx = 0 ∨ prevAx = 3 then (1, 2) else (0, 1)

/-- `search.py` lines 287-292 (`totalDepth`): the power increment — `+1` on
the U/D axes, `+2` (i.e. `2 → 4`, exhausted) on the R/F/L/B axes. -/
def phase2BumpPo (ax po : Nat) : Nat :=
  if ax = 0 ∨ ax = 3 then po + 1 else po + 2

/-- `search.py` lines 311-315 (`totalDepth`): the power reset after an axis
increment — `1` on the U/D axes, `2` on the R/F/L/B axes. -/
def phase2ResetPo (ax : Nat) : Nat :=
  if ax = 0 ∨ ax = 3 then 1 else 2

/-- The invariant maintained by the three `totalDepth` phase-2 generator
steps above: axes `0..5`, powers `1..3` on U/D and exactly `2` elsewhere. -/
def phase2PairOK (ax po : Nat) : Prop :=
  ax ≤ 5 ∧ ((ax = 0 ∨ ax = 3) → 1 ≤ po ∧ po ≤ 3) ∧ (¬ (ax = 0 ∨ ax = 3) → po = 2)

/-- Spec §3.3: the phase-2 legal move set
{U, U², U′, R², F², D, D², D′, L², B²} as move indices. -/
def phase2LegalMoves : List Nat := [0, 1, 2, 4, 7, 9, 10, 11, 13, 16]

/-- `search.py` lines 368-369 and 389-391 (`bidirectional_totalDepth`): the
candidate move indices `full_mv = mv + p - 1` for
`mv in [0, 3, 6, 9, 12, 15]` and `p in [1, 2, 3]` — all six axes at **all
three** powers. -/
def bidiCandidateMoves : List Nat :=
  [0, 3, 6, 9, 12, 15].flatMap (fun mv => [1, 2, 3].map (fun p => mv + p - 1))

/-- `search.py` line 18. -/
def ax_to_s : List String := ["U", "R", "F", "D", "L", "B"]

/-- `search.py` line 19 (`po_to_s[0]` is Python `None`; it is only read for
powers `1..3`). -/
def po_to_s : List (Option String) := [none, some " ", some "2 ", some "' "]

/-- `search.py` lines 83-92 `solutionToString` (without the optional
phase separator): concatenates `ax_to_s[ax[i]] + po_to_s[po[i]]` for
`i < length`, reading the depth-indexed move arrays. -/
def solutionToString (ax po : Nat → Nat) (len : Nat) : String :=
  (List.range len).foldl
    (fun s i => s ++ ax_to_s.getD (ax i) "" ++ (po_to_s.getD (po i) none).getD "") ""

/-! ### Input validation and the facelet codec (`search.py` lines 107-124,
`facecube.py`, `color.py`)

`color.py` and `facecube.py` are not in the source tree; the color map and
codec are modelled from the spec (§6.1 fixes the facelet layout, §4.2 the
matching procedure, §4.1/§7 the `verify` codes). -/

/-- Modelled from the spec: `color.py` `colors` — the six face letters map
to color indices in the face order U,R,F,D,L,B = 0..5 fixed by §6.1; any
other character is absent from the map. -/
def colors (c : Char) : Option Nat :=
  match c with
  | 'U' => some 0
  | 'R' => some 1
  | 'F' => some 2
  | 'D' => some 3
  | 'L' => some 4
  | 'B' => some 5
  | _ => none

/-- Count of facelets of color `k` (the `count` array of `search.py`
lines 108-112). -/
def colorCount (s : List Char) (k : Nat) : Nat :=
  s.countP (fun c => colors c == some k)

/-- `search.py` lines 107-118: the "Error 1" validation.  The `try` loop
reads exactly `facelets[0..53]`; a string shorter than 54 raises
`IndexError` (caught → Error 1), a longer one is silently truncated to its
first 54 characters.  After the loop each of the six colors must occur
exactly 9 times **among those first 54 characters**. -/
def error1Fires (s : List Char) : Bool :=
  decide (s.length < 54) ||
    (s.take 54).any (fun c => (colors c).isNone) ||
    [0, 1, 2, 3, 4, 5].any (fun k => colorCount (s.take 54) k != 9)

/-- Modelled from the spec: §6.1 — the facelet positions of each corner
cubicle, clockwise starting with the U/D sticker, for the face blocks
U = 0-8, R = 9-17, F = 18-26, D = 27-35, L = 36-44, B = 45-53 (the URF
corner is at (U[8], R[0], F[2])).  (`facecube.py` `cornerFacelet`, not in
src/.) -/
def cornerFacelet : List (List Nat) :=
  [[8, 9, 20], [6, 18, 38], [0, 36, 47], [2, 45, 11],
   [29, 26, 15], [27, 44, 24], [33, 53, 42], [35, 17, 51]]

/-- Modelled from the spec: the home colors of each corner, in the same
sticker order as `cornerFacelet`. -/
def cornerColor : List (List Nat) :=
  [[0, 1, 2], [0, 2, 4], [0, 4, 5], [0, 5, 1],
   [3, 2, 1], [3, 4, 2], [3, 5, 4], [3, 1, 5]]

/-- Modelled from the spec: §6.1 — the facelet position pairs of each edge
cubicle (`facecube.py` `edgeFacelet`, not in src/). -/
def edgeFacelet : List (List Nat) :=
  [[5, 10], [7, 19], [3, 37], [1, 46], [32, 16], [28, 25],
   [30, 43], [34, 52], [23, 12], [21, 41], [50, 39], [48, 14]]

/-- Modelled from the spec: the home colors of each edge, in the same
sticker order as `edgeFacelet`. -/
def edgeColor : List (List Nat) :=
  [[0, 1], [0, 2], [0, 4], [0, 5], [3, 1], [3, 2],
   [3, 4], [3, 5], [2, 1], [2, 4], [5, 4], [5, 1]]

/-- Sticker color at corner cubicle `i`, sticker slot `k`. -/
def cornerFaceletColor (f : List Nat) (i k : Nat) : Nat :=
  f.getD ((cornerFacelet.getD i []).getD k 0) 0

/-- Modelled from the spec: §4.2 — the orientation of corner cubicle `i` is
the rotation that brings its U/D sticker (color 0 or 3) first. -/
def cornerOriOf (f : List Nat) (i : Nat) : Nat :=
  if cornerFaceletColor f i 0 = 0 ∨ cornerFaceletColor f i 0 = 3 then 0
  else if cornerFaceletColor f i 1 = 0 ∨ cornerFaceletColor f i 1 = 3 then 1
  else 2

/-- Modelled from the spec: §4.2 — identify the cubie sitting in corner
cubicle `i` by matching the two non-U/D sticker colors against the home
colors; a triple matching no home cubie is a codec failure case (§4.2), the
returned slot is irrelevant there. -/
def cornerAt (f : List Nat) (i : Nat) : Nat × Nat :=
  let ori := cornerOriOf f i
  let col1 := cornerFaceletColor f i ((ori + 1) % 3)
  let col2 := cornerFaceletColor f i ((ori + 2) % 3)
  match (List.range 8).find? (fun j =>
      col1 == (cornerColor.getD j []).getD 1 0 &&
      col2 == (cornerColor.getD j []).getD 2 0) with
  | some j => (j, ori % 3)
  | none => (0, ori % 3)

/-- Modelled from the spec: §4.2 — identify the cubie sitting in edge
cubicle `i`: an exact color-pair match gives flip 0, a swapped match flip
1. -/
def edgeAt (f : List Nat) (i : Nat) : Nat × Nat :=
  let c0 := f.getD ((edgeFacelet.getD i []).getD 0 0) 0
  let c1 := f.getD ((edgeFacelet.getD i []).getD 1 0) 0
  match (List.range 12).find? (fun j =>
      c0 == (edgeColor.getD j []).getD 0 0 && c1 == (edgeColor.getD j []).getD 1 0) with
  | some j => (j, 0)
  | none =>
    match (List.range 12).find? (fun j =>
        c0 == (edgeColor.getD j []).getD 1 0 && c1 == (edgeColor.getD j []).getD 0 0) with
    | some j => (j, 1)
    | none => (0, 0)

/-- Modelled from the spec: §4.2 — `FaceCube(facelets).toCubieCube()`
(`facecube.py`, not in src/).  Unknown characters cannot occur after the
Error-1 validation; they are mapped to color 0 here. -/
def toCubieCube (s : List Char) : CubieCube :=
  let f := s.map (fun c => (colors c).getD 0)
  { cp := (List.range 8).map (fun i => (cornerAt f i).1)
    co := (List.range 8).map (fun i => (cornerAt f i).2)
    ep := (List.range 12).map (fun i => (edgeAt f i).1)
    eo := (List.range 12).map (fun i => (edgeAt f i).2) }

/-- Number of inversions of a permutation given as a list (used for the
corner/edge parity check of `verify`). -/
def inversions (l : List Nat) : Nat :=
  (List.range l.length).foldl
    (fun acc i => acc + (List.range i).countP (fun j => l.getD i 0 < l.getD j 0)) 0

/-- Modelled from the spec: §4.1 / §7 — `CubieCube.verify` (`cubiecube.py`,
not in src/): `0` if all invariants hold, else the first failing code in
the order documented in `tools.py`: every edge exactly once (−2), edge flip
sum ≡ 0 mod 2 (−3), every corner exactly once (−4), corner twist sum ≡ 0
mod 3 (−5), corner parity = edge parity (−6). -/
def cubieVerify (cc : CubieCube) : Int :=
  if ¬ (∀ e ∈ List.range 12, cc.ep.count e = 1) then -2
  else if cc.eo.sum % 2 ≠ 0 then -3
  else if ¬ (∀ c ∈ List.range 8, cc.cp.count c = 1) then -4
  else if cc.co.sum % 3 ≠ 0 then -5
  else if (inversions cc.cp + inversions cc.ep) % 2 ≠ 0 then -6
  else 0

/-- `search.py` lines 107-127, the pre-search part of `Search.solution`:
`some e` is an early return of the error string `e`, `none` means the
validation passed and the coordinate search is entered.  (The search loop
itself can only return "Error 7", "Error 8", or `solutionToString` of the
found moves — never "Error 1".) -/
def solutionEarly (s : List Char) : Option String :=
  if error1Fires s then some "Error 1"
  else
    let v := cubieVerify (toCubieCube s)
    if v ≠ 0 then some ("Error " ++ toString v.natAbs) else none

/-- The solved facelet string from spec §8, scenario 1. -/
def solvedFacelets : String :=
  "UUUUUUUUURRRRRRRRRFFFFFFFFFDDDDDDDDDLLLLLLLLLBBBBBBBBB"

/-- `search.py` lines 409-411 `get_phase2_hash`:
`(URFtoDLF << 24) | (FRtoBR << 12) | (parity << 8) | URtoDF` (Python `|` on
the non-negative operands is `Nat.lor`; note `URtoDF < 20160` needs 15 bits
but only bits 0-7 are reserved for it). -/
def get_phase2_hash (urf frbr par urdf : Nat) : Nat :=
  ((urf <<< 24) ||| (frbr <<< 12)) ||| ((par <<< 8) ||| urdf)

/-- `search.py` lines 415-418, the field extraction of `apply_phase2_move`:
`urf = (h >> 24) & 0xFFFF`, `frbr = (h >> 12) & 0xFFF`, `par = (h >> 8) & 1`,
`urdf = h & 0xFF`. -/
def phase2_hash_fields (h : Nat) : Nat × Nat × Nat × Nat :=
  ((h >>> 24) &&& 0xFFFF, (h >>> 12) &&& 0xFFF, (h >>> 8) &&& 1, h &&& 0xFF)

/-! Helper lemmas for the Lehmer round-trip analysis. -/

theorem countP_range_lt : ∀ n v : Nat, v ≤ n →
    (List.range n).countP (fun w => decide (w < v)) = v := by
  intro n
  induction n with
  | zero =>
    intro v h
    have hv : v = 0 := by omega
    subst hv; rfl
  | succ m ih =>
    intro v h
    rw [List.range_succ, List.countP_append]
    by_cases hv : v ≤ m
    · rw [ih v hv]
      have hnm : ¬ (m < v) := by omega
      simp [hnm]
    · have hv2 : v = m + 1 := by omega
      subst hv2
      have h1 : (List.range m).countP (fun w => decide (w < m + 1)) = m := by
        rw [List.countP_eq_length.mpr, List.length_range]
        intro a ha
        have := List.mem_range.mp ha
        simp
        omega
      rw [h1]
      simp

theorem smallerCount_nil (v : Nat) : smallerCount [] v = v := by
  unfold smallerCount
  rw [List.countP_eq_length.mpr, List.length_range]
  intro a _
  simp

/-- Adding a fresh element to `used` drops the count by one exactly when that
element lies below the threshold. -/
theorem countP_notmem_cons (a : Nat) (u : List Nat) :
    ∀ L : List Nat, L.Nodup →
      L.countP (fun x => decide (x ∉ a :: u)) + (if a ∈ L ∧ a ∉ u then 1 else 0) =
        L.countP (fun x => decide (x ∉ u)) := by
  intro L
  induction L with
  | nil => simp
  | cons x L ih =>
    intro hnd
    obtain ⟨hxL, hndL⟩ := List.nodup_cons.mp hnd
    rw [List.countP_cons, List.countP_cons]
    by_cases hxa : x = a
    · subst hxa
      have hcongr : L.countP (fun y => decide (y ∉ x :: u)) =
          L.countP (fun y => decide (y ∉ u)) := by
        apply List.countP_congr
        intro y hy
        have hyx : y ≠ x := fun he => hxL (he ▸ hy)
        simp [List.mem_cons, hyx]
      rw [hcongr]
      have hmem : x ∈ x :: L := List.mem_cons_self x L
      by_cases hxu : x ∈ u <;> simp [hmem, hxu]
    · have hax : a ∈ x :: L ↔ a ∈ L := by
        simp [List.mem_cons]
        intro he
        exact absurd he.symm hxa
      have hxau : (x ∉ a :: u) ↔ (x ∉ u) := by
        simp [List.mem_cons, hxa]
      rw [← ih hndL]
      by_cases hxu : x ∈ u <;> by_cases haL : a ∈ L ∧ a ∉ u <;>
        simp [hax, hxau, hxu, haL] <;> omega

/-- In a strictly sorted list, the number of entries below `v` is the index
of `v`; reading there gives `v` back and erasing there erases `v`. -/
theorem sorted_getD_eraseIdx :
    ∀ elems : List Nat, elems.Sorted (· < ·) → ∀ v ∈ elems,
      elems.getD (elems.countP (fun w => decide (w < v))) 0 = v ∧
      elems.eraseIdx (elems.countP (fun w => decide (w < v))) = elems.erase v := by
  intro elems
  induction elems with
  | nil => intro _ v hv; cases hv
  | cons e es ih =>
    intro hs v hv
    have hrel : ∀ w ∈ es, e < w := (List.sorted_cons.mp hs).1
    have hses : es.Sorted (· < ·) := (List.sorted_cons.mp hs).2
    rw [List.countP_cons]
    by_cases hve : v = e
    · subst hve
      have h0 : es.countP (fun w => decide (w < v)) = 0 := by
        rw [List.countP_eq_zero]
        intro w hw
        have := hrel w hw
        simp
        omega
      have hvv : ¬ (v < v) := by omega
      simp [h0, hvv]
    · have hv' : v ∈ es := by
        rcases List.mem_cons.mp hv with h | h
        · exact absurd h hve
        · exact h
      have hev : e < v := hrel v hv'
      obtain ⟨ih1, ih2⟩ := ih hses v hv'
      have herase : (e :: es).erase v = e :: es.erase v :=
        List.erase_cons_tail (by simp [hve]; exact fun h => absurd h.symm hve)
      have hif : (if decide (e < v) = true then 1 else 0) = 1 := by simp [hev]
      rw [hif]
      constructor
      · simpa using ih1
      · rw [herase]
        simpa using ih2

/-- Core of the round-trip analysis: with the invariants tying `used`,
`elems` and the original universe together, `int_to_perm_loop` recovers the
encoded list *without* the final reversal, and the code stays below
`(length)!`. -/
theorem lehmer_loop_inverts :
    ∀ p elems used : List Nat,
      elems.Sorted (· < ·) → p.Perm elems →
      (∀ x ∈ elems, x ∉ used) →
      (∀ v ∈ elems, smallerCount used v = elems.countP (fun w => decide (w < v))) →
      perm_to_int_go used p < Nat.factorial p.length ∧
      int_to_perm_loop p.length elems (perm_to_int_go used p) = p := by
  intro p
  induction p with
  | nil =>
    intro elems used _ _ _ _
    exact ⟨Nat.one_pos, rfl⟩
  | cons v rest ih =>
    intro elems used hs hperm hdisj hsc
    have hv : v ∈ elems := hperm.mem_iff.mp (List.mem_cons_self v rest)
    have hnd : elems.Nodup := hs.nodup
    have hlen : elems.length = rest.length + 1 := by
      have := hperm.length_eq
      simpa using this.symm
    have hdv : smallerCount used v = elems.countP (fun w => decide (w < v)) := hsc v hv
    have hdlt : elems.countP (fun w => decide (w < v)) < elems.length := by
      rcases Nat.lt_or_ge (elems.countP (fun w => decide (w < v))) elems.length with h | h
      · exact h
      · exfalso
        have hle := List.countP_le_length (fun w => decide (w < v)) (l := elems)
        have heq : elems.countP (fun w => decide (w < v)) = elems.length :=
          Nat.le_antisymm hle h
        have hall := List.countP_eq_length.mp heq
        have := hall v hv
        simp at this
    have hperm' : rest.Perm (elems.erase v) := by
      have h1 := hperm.erase v
      rwa [List.erase_cons_head] at h1
    have hs' : (elems.erase v).Sorted (· < ·) :=
      hs.sublist (List.erase_sublist v elems)
    have hdisj' : ∀ x ∈ elems.erase v, x ∉ v :: used := by
      intro x hx
      have hx' : x ≠ v ∧ x ∈ elems := (hnd.mem_erase_iff).mp hx
      intro hmem
      rcases List.mem_cons.mp hmem with h | h
      · exact hx'.1 h
      · exact hdisj x hx'.2 h
    have hsc' : ∀ w ∈ elems.erase v,
        smallerCount (v :: used) w = (elems.erase v).countP (fun z => decide (z < w)) := by
      intro w hw
      have hw' : w ∈ elems := ((hnd.mem_erase_iff).mp hw).2
      have hvu : v ∉ used := hdisj v hv
      have hkey := countP_notmem_cons v used (List.range w) (List.nodup_range w)
      have hsplit : elems.countP (fun z => decide (z < w)) =
          (elems.erase v).countP (fun z => decide (z < w)) +
            (if v < w then 1 else 0) := by
        have hp := (List.perm_cons_erase hv).countP_eq (fun z => decide (z < w))
        rw [hp, List.countP_cons]
        by_cases hvw : v < w <;> simp [hvw]
      have hmemr : v ∈ List.range w ↔ v < w := List.mem_range
      have hkey2 : smallerCount (v :: used) w +
          (if v ∈ List.range w ∧ v ∉ used then 1 else 0) = smallerCount used w := hkey
      have hscw := hsc w hw'
      by_cases hvw : v < w
      · rw [if_pos ⟨hmemr.mpr hvw, hvu⟩] at hkey2
        rw [if_pos hvw] at hsplit
        omega
      · rw [if_neg (fun hcon => hvw (hmemr.mp hcon.1))] at hkey2
        rw [if_neg hvw] at hsplit
        omega
    obtain ⟨ihb, ihl⟩ := ih (elems.erase v) (v :: used) hs' hperm' hdisj' hsc'
    have hdle : elems.countP (fun w => decide (w < v)) ≤ rest.length := by omega
    have hfac : Nat.factorial (rest.length + 1) =
        (rest.length + 1) * Nat.factorial rest.length := Nat.factorial_succ rest.length
    have hbound : perm_to_int_go used (v :: rest) <
        Nat.factorial (rest.length + 1) := by
      show smallerCount used v * Nat.factorial rest.length +
          perm_to_int_go (v :: used) rest < Nat.factorial (rest.length + 1)
      have h1 : smallerCount used v * Nat.factorial rest.length ≤
          rest.length * Nat.factorial rest.length := by
        rw [hdv]
        exact Nat.mul_le_mul_right _ hdle
      have h2 : (rest.length + 1) * Nat.factorial rest.length =
          rest.length * Nat.factorial rest.length + Nat.factorial rest.length :=
        Nat.succ_mul rest.length (Nat.factorial rest.length)
      omega
    refine ⟨hbound, ?_⟩
    show int_to_perm_loop (rest.length + 1) elems
        (smallerCount used v * Nat.factorial rest.length +
          perm_to_int_go (v :: used) rest) = v :: rest
    have hidx : (smallerCount used v * Nat.factorial rest.length +
        perm_to_int_go (v :: used) rest) / Nat.factorial rest.length =
          elems.countP (fun w => decide (w < v)) := by
      rw [Nat.mul_comm, Nat.mul_add_div (Nat.factorial_pos rest.length),
        Nat.div_eq_of_lt ihb, hdv]
      omega
    have hmod : (smallerCount used v * Nat.factorial rest.length +
        perm_to_int_go (v :: used) rest) % Nat.factorial rest.length =
          perm_to_int_go (v :: used) rest := by
      rw [Nat.mul_comm, Nat.mul_add_mod, Nat.mod_eq_of_lt ihb]
    obtain ⟨hget, herase⟩ := sorted_getD_eraseIdx elems hs v hv
    simp only [int_to_perm_loop, hidx, hmod, hget, herase]
    rw [ihl]

/-- C10 (amended): for every `n` with `1 ≤ n ≤ 12` and every permutation `p`
of `{0, ..., n-1}`, `int_to_perm (perm_to_int p) n` equals the **reverse** of
`p`, not `p` itself: the `perm.reverse()` on line 41 of `bitcube.py` undoes a
reversal that `perm_to_int` never performed.  (So the round trip is the
identity exactly on palindromic permutations.) -/
theorem int_to_perm_perm_to_int_eq_reverse (n : Nat) (_h1 : 1 ≤ n) (_h2 : n ≤ 12)
    (p : List Nat) (hp : p.Perm (List.range n)) :
    int_to_perm (perm_to_int p) n = p.reverse := by
  have hlen : p.length = n := by
    have := hp.length_eq
    simpa using this
  have hsc : ∀ v ∈ List.range n,
      smallerCount [] v = (List.range n).countP (fun w => decide (w < v)) := by
    intro v hv
    rw [smallerCount_nil, countP_range_lt n v (Nat.le_of_lt (List.mem_range.mp hv))]
  obtain ⟨_, hloop⟩ := lehmer_loop_inverts p (List.range n) []
    (List.sorted_lt_range n) hp (fun x _ hx => (List.not_mem_nil x) hx) hsc
  rw [hlen] at hloop
  unfold int_to_perm perm_to_int
  rw [hloop]

/-- C10 (counterexample): the claimed round trip fails already at `n = 2`,
`p = [1, 0]`: unpacking the packed permutation returns `[0, 1]`, not `p`. -/
theorem c10_lehmer_roundtrip_counterexample :
    ¬ (int_to_perm (perm_to_int [1, 0]) 2 = [1, 0]) := by decide

/-- C10 (witness): the amended round trip evaluated at `n = 3`,
`p = [1, 2, 0]`. -/
theorem c10_lehmer_roundtrip_witness :
    ([1, 2, 0] : List Nat).Perm (List.range 3) ∧
      int_to_perm (perm_to_int [1, 2, 0]) 3 = ([1, 2, 0] : List Nat).reverse :=
  ⟨by decide,
    int_to_perm_perm_to_int_eq_reverse 3 (by decide) (by decide) [1, 2, 0] (by decide)⟩

/-- C9: the fast multiply does **not** refine the reference multiply.
Already on the bit-packed solved state `(pc, pe, orie) = (0, 0, 0)` with
`axis = 0` (U) and `power = 1`, `multiply_native` and `multiply_fallback`
applied with the U move cubie produce different `pc` fields: the
encode/decode pair `perm_to_int`/`int_to_perm` is not mutually inverse
(`int_to_perm` reverses, see the C10 theorems), so the two code paths
compose the permutations differently.  (For `power = 3` the delta index
`axis*3 + (power % 3) - 1` additionally selects the wrong `MOVE_DELTA`
entry: `3*axis - 1` instead of `3*axis + 2`.) -/
theorem c9_multiply_native_ne_fallback :
    multiply_native ⟨0, 0, 0⟩ 0 1 ≠ multiply_fallback ⟨0, 0, 0⟩ moveU := by decide

theorem getD_replicate_helper :
    ∀ (n i : Nat) (a d : Int), i < n → (List.replicate n a).getD i d = a := by
  intro n
  induction n with
  | zero => intro i a d h; omega
  | succ m ih =>
    intro i a d h
    cases i with
    | zero => rfl
    | succ j => exact ih j a d (by omega)

theorem getPruning_replicate (n : Nat) (a : Int) (i : Nat) (h : i >>> 1 < n) :
    getPruning (List.replicate n a) i =
      if i % 2 = 0 then pyAnd a 15 else pyShr a 4 := by
  unfold getPruning
  rw [getD_replicate_helper n (i >>> 1) a 0 h]

/-- C5: evaluation of the pruning-table allocation and initialization at the
failing inputs.  `Slice_Twist_Prun` is allocated as `[0] * ((495*2187+3)//4)`
— a quarter of the required bytes, zero-filled — so a fresh `getPruning`
returns `0` (not `15`) at index `0`, and the byte index of the last table
index lies outside the allocation; the `[-1]`-filled tables return `-1`
(not `15`) at odd indices until the byte is first written, because Python's
`-1 >> 4` is `-1`. -/
theorem c5_pruning_init_eval :
    getPruning sliceTwistPrunInit 0 = 0 ∧
    getPruning sliceFlipPrunInit 1 = -1 ∧
    getPruning sliceFlipPrunInit 0 = 15 ∧
    2 * sliceTwistPrunInit.length < 495 * 2187 ∧
    sliceTwistPrunInit.length ≤ (495 * 2187 - 1) >>> 1 ∧
    2 * sliceFlipPrunInit.length = 495 * 2048 := by
  refine ⟨?_, ?_, ?_, ?_, ?_, ?_⟩
  · rw [show sliceTwistPrunInit = List.replicate ((495 * 2187 + 3) / 4) 0 from rfl,
      getPruning_replicate _ _ _ (by norm_num)]
    decide
  · rw [show sliceFlipPrunInit = List.replicate (495 * 2048 / 2) (-1) from rfl,
      getPruning_replicate _ _ _ (by decide)]
    decide
  · rw [show sliceFlipPrunInit = List.replicate (495 * 2048 / 2) (-1) from rfl,
      getPruning_replicate _ _ _ (by decide)]
    decide
  · rw [show sliceTwistPrunInit = List.replicate ((495 * 2187 + 3) / 4) 0 from rfl,
      List.length_replicate]
    decide
  · rw [show sliceTwistPrunInit = List.replicate ((495 * 2187 + 3) / 4) 0 from rfl,
      List.length_replicate]
    decide
  · rw [show sliceFlipPrunInit = List.replicate (495 * 2048 / 2) (-1) from rfl,
      List.length_replicate]

/-- C4 (counterexample): with 1-byte table states holding the packed entries
`(0, 1)` — which agree with the real tables' positive distance at the
unsolved index `(twist, slice) = (0, 1)` — the node heuristic at
`flip = twist = 0`, `slice = 1` is `0`, while the claimed
`max(Slice_Flip_Prun[495·flip+slice], Slice_Twist_Prun[495·twist+slice])`
is `1`: the code applies a further `max(0, base - 1)` adjustment whenever
`flip < 100 and twist < 100`. -/
theorem c4_heuristic_counterexample :
    get_enhanced_heuristic [16] [16] 0 0 1 1 = 0 ∧
    max (getPruning [16] (495 * 0 + 1)) (getPruning [16] (495 * 0 + 1)) = 1 := by
  decide

/-- C4 (amended): for every table state and all coordinates, the phase-1
value of `get_enhanced_heuristic` equals the max of the two packed pruning
entries **except** when `flip < 100` and `twist < 100`, in which case it is
`max(0, that max - 1)`. -/
theorem c4_heuristic_amended :
    (∀ sfp stp flip twist sc : _, ¬ (flip < 100 ∧ twist < 100) →
      get_enhanced_heuristic sfp stp flip twist sc 1 =
        max (getPruning sfp (495 * flip + sc)) (getPruning stp (495 * twist + sc))) ∧
    (∀ sfp stp flip twist sc : _, flip < 100 → twist < 100 →
      get_enhanced_heuristic sfp stp flip twist sc 1 =
        max 0 (max (getPruning sfp (495 * flip + sc))
          (getPruning stp (495 * twist + sc)) - 1)) := by
  constructor
  · intro sfp stp flip twist sc h
    simp [get_enhanced_heuristic, h]
  · intro sfp stp flip twist sc h1 h2
    simp [get_enhanced_heuristic, h1, h2]

/-- C4 (witness): the unadjusted branch of the amended statement evaluated
at `flip = 100`. -/
theorem c4_heuristic_witness :
    get_enhanced_heuristic [16] [16] 100 0 1 1 =
      max (getPruning [16] (495 * 100 + 1)) (getPruning [16] (495 * 0 + 1)) :=
  c4_heuristic_amended.1 [16] [16] 100 0 1 (by decide)

/-- C8 (counterexample): the phase-1 axis pruning runs in the **opposite**
direction to the claim.  A child on axis 3 (D) after a parent on axis 0 (U)
is *not* skipped (`0 == 3` and `0 - 3 == 3` are both false), while a child
on axis 0 after a parent on axis 3 *is* skipped (`3 - 3 == 0`). -/
theorem c8_axis_prune_counterexample :
    phase1MoveSkipped 0 3 = false ∧ phase1MoveSkipped 3 0 = true := by decide

/-- C8 (amended): for every axis `a ∈ {0, 1, 2}` (U, R, F), the generator
skips a child on axis `a` immediately after a parent on axis `a + 3`
(D, L, B), while a child on axis `a + 3` immediately after a parent on axis
`a` is allowed — the direction converse to the claimed one. -/
theorem c8_axis_prune_amended :
    ∀ a : Int, 0 ≤ a → a ≤ 2 →
      phase1MoveSkipped (a + 3) a = true ∧ phase1MoveSkipped a (a + 3) = false := by
  intro a _ _
  constructor
  · have h : (a + 3 - 3 == a) = true := by
      rw [beq_iff_eq]
      omega
    simp [phase1MoveSkipped, h]
  · have h1 : (a == a + 3) = false := by
      rw [beq_eq_false_iff_ne]
      omega
    have h2 : (a - 3 == a + 3) = false := by
      rw [beq_eq_false_iff_ne]
      omega
    simp [phase1MoveSkipped, h1, h2]

/-- C8 (witness): the amended statement at `a = 1` — a parent L (axis 4)
forbids a child R (axis 1), while a parent R allows a child L. -/
theorem c8_axis_prune_witness :
    phase1MoveSkipped 4 1 = true ∧ phase1MoveSkipped 1 4 = false :=
  c8_axis_prune_amended 1 (by decide) (by decide)

/-- C3 (counterexample): `bidirectional_totalDepth` draws its candidate
moves from **all 18** move indices; in particular index
`3 = 3·1 + 1 - 1` (a 90° R turn) is among them, yet it is not in the
phase-2 legal move set — contradicting the claim that every move appended
after the phase-1 prefix has index in {0,1,2,4,7,9,10,11,13,16}. -/
theorem c3_bidirectional_move_counterexample :
    3 ∈ bidiCandidateMoves ∧ 3 ∉ phase2LegalMoves := by decide

/-- C3 (amended): the phase-2 suffix is restricted to the ten H-legal moves
only on the `totalDepth` path: the three generator steps of `totalDepth`
preserve the axis/power invariant `phase2PairOK`, and every pair satisfying
it has move index `3*ax + po - 1` in the legal set; `bidirectional_totalDepth`
enumerates all 18 move indices instead (see the counterexample). -/
theorem c3_totalDepth_phase2_moves_legal :
    (∀ prevAx, prevAx ≤ 5 →
      phase2PairOK (phase2InitMove prevAx).1 (phase2InitMove prevAx).2) ∧
    (∀ ax po, phase2PairOK ax po → phase2BumpPo ax po ≤ 3 →
      phase2PairOK ax (phase2BumpPo ax po)) ∧
    (∀ ax, ax ≤ 5 → phase2PairOK ax (phase2ResetPo ax)) ∧
    (∀ ax po, phase2PairOK ax po → 3 * ax + po - 1 ∈ phase2LegalMoves) := by
  refine ⟨?_, ?_, ?_, ?_⟩
  · intro prevAx _
    by_cases h : prevAx = 0 ∨ prevAx = 3 <;>
      simp [phase2InitMove, phase2PairOK, h]
  · intro ax po hOK hle
    obtain ⟨h5, hUD, hother⟩ := hOK
    by_cases h : ax = 0 ∨ ax = 3
    · have := hUD h
      unfold phase2BumpPo at hle ⊢
      rw [if_pos h] at hle ⊢
      exact ⟨h5, fun _ => by omega, fun hc => absurd h hc⟩
    · have := hother h
      unfold phase2BumpPo at hle ⊢
      rw [if_neg h] at hle ⊢
      omega
  · intro ax h5
    by_cases h : ax = 0 ∨ ax = 3 <;>
      simp [phase2ResetPo, phase2PairOK, h, h5]
  · intro ax po hOK
    obtain ⟨h5, hUD, hother⟩ := hOK
    interval_cases ax
    · obtain ⟨hp1, hp3⟩ := hUD (Or.inl rfl)
      interval_cases po <;> decide
    · rw [hother (by omega)]; decide
    · rw [hother (by omega)]; decide
    · obtain ⟨hp1, hp3⟩ := hUD (Or.inr rfl)
      interval_cases po <;> decide
    · rw [hother (by omega)]; decide
    · rw [hother (by omega)]; decide

/-- C3 (witness): the invariant-to-legality part of the amended statement at
the pair `(ax, po) = (1, 2)`, i.e. the move R². -/
theorem c3_totalDepth_phase2_moves_witness :
    3 * 1 + 2 - 1 ∈ phase2LegalMoves :=
  c3_totalDepth_phase2_moves_legal.2.2.2 1 2
    ⟨by decide, fun h => by omega, fun _ => rfl⟩

/-- C6: the search can never produce the claimed empty solution string.
`depthPhase1` starts at `1` and only increases, and every success path
returns `solutionToString` of `s ≥ depthPhase1 ≥ 1` moves (`totalDepth`
returns `depthPhase1` or `depthPhase1 + depthPhase2`,
`bidirectional_totalDepth` returns `depthPhase1 + d + 1 + b_d`); rendering
at least one move always yields a nonempty string. -/
theorem c6_solution_string_nonempty :
    ∀ (ax po : Nat → Nat) (n : Nat), 1 ≤ n → (∀ i, ax i ≤ 5) →
      solutionToString ax po n ≠ "" := by
  intro ax po n h1 hax
  obtain ⟨m, rfl⟩ : ∃ m, n = m + 1 := ⟨n - 1, by omega⟩
  have hstep : solutionToString ax po (m + 1) =
      solutionToString ax po m ++ ax_to_s.getD (ax m) "" ++
        (po_to_s.getD (po m) none).getD "" := by
    unfold solutionToString
    rw [List.range_succ, List.foldl_append]
    rfl
  have haxlen : (ax_to_s.getD (ax m) "").length = 1 := by
    have h5 := hax m
    set k := ax m with hk
    interval_cases k <;> decide
  intro hempty
  have hlen0 : (solutionToString ax po (m + 1)).length = 0 := by
    rw [hempty]
    rfl
  rw [hstep, String.length_append, String.length_append] at hlen0
  omega

/-- C6 (witness): rendering the single move `U` (axis 0, power 1) is not the
empty string. -/
theorem c6_solution_string_nonempty_witness :
    solutionToString (fun _ => 0) (fun _ => 1) 1 ≠ "" :=
  c6_solution_string_nonempty (fun _ => 0) (fun _ => 1) 1 (by decide) (fun _ => Nat.zero_le 5)

/-- C7 (counterexample): the 55-character input `solvedFacelets ++ "R"` has
length ≠ 54, yet the validation does not fire and no early error is
returned (`solutionEarly = none`): the validation loop reads only
`facelets[0..53]`, those 54 characters are a legal solved cube, `verify`
passes, and the search is entered — so `Search.solution` does not return
"Error 1" on it (the search loop returns only "Error 7", "Error 8" or a
rendered move sequence). -/
theorem c7_error1_counterexample :
    (solvedFacelets.toList ++ ['R']).length ≠ 54 ∧
      solutionEarly (solvedFacelets.toList ++ ['R']) = none := by decide

/-- C7 (amended): `Search.solution` returns exactly "Error 1", before any
search step, for every input whose **first 54 characters** fail the check:
the string is shorter than 54 characters, or one of its first 54 characters
is not a face letter, or some color count over the first 54 characters
differs from 9.  Inputs longer than 54 characters whose first 54 characters
form a legal cube are not rejected. -/
theorem c7_error1_amended :
    ∀ s : List Char,
      (s.length < 54 ∨ (∃ c ∈ s.take 54, colors c = none) ∨
        (∃ k ≤ 5, colorCount (s.take 54) k ≠ 9)) →
      solutionEarly s = some "Error 1" := by
  intro s h
  have hfires : error1Fires s = true := by
    unfold error1Fires
    rw [Bool.or_eq_true, Bool.or_eq_true]
    rcases h with h | ⟨c, hc, hcol⟩ | ⟨k, hk, hcount⟩
    · left; left
      exact decide_eq_true h
    · left; right
      rw [List.any_eq_true]
      exact ⟨c, hc, by rw [hcol]; rfl⟩
    · right
      rw [List.any_eq_true]
      refine ⟨k, ?_, ?_⟩
      · interval_cases k <;> decide
      · rwa [bne_iff_ne, ne_eq]
  unfold solutionEarly
  rw [if_pos hfires]

/-- C7 (witness): the empty input (length 0 < 54) is rejected with
"Error 1". -/
theorem c7_error1_witness : solutionEarly [] = some "Error 1" :=
  c7_error1_amended [] (Or.inl (by decide))

/-- Supporting fact for the phase-2 bidirectional search: the state hash is
lossy.  `get_phase2_hash` reserves only 8 bits for `URtoDF` (range 20160),
so already at `(URFtoDLF, FRtoBR, parity, URtoDF) = (0, 0, 0, 256)` the
extraction of `apply_phase2_move` reads back `URtoDF = 0` and a corrupted
`parity = 1`. -/
theorem phase2_hash_truncates_URtoDF :
    phase2_hash_fields (get_phase2_hash 0 0 0 256) = (0, 0, 1, 0) := by decide
